import Mathlib

/-!
Shallow embedding of the UEFI Stub Loader (Stubloader.c, Stubloader.h) and
verification of the frozen claims about it.

Conventions:
- CHAR16 buffers are modelled as lists of bytes (`List Nat`, each < 256 in
  well-formed inputs); 16-bit code units are decoded little-endian, matching
  the x86-64 build target of the source.
- The file size reported by the firmware equals the byte list's length.
- Loops over `UINT64` indices are modelled with explicit fuel equal to the
  number of remaining iterations, so all recursion is structural.
- Uninitialized pool memory is modelled with `Option Nat` cells (`none` =
  never written by the loader).
-/

namespace StubLoader

/-- Number of 16-bit code units in the buffer: `FileSize >> 1` in the source
(Stubloader.c line 328). -/
def numUnits (bytes : List Nat) : Nat := bytes.length / 2

/-- The 16-bit code unit at unit index `i`, decoded little-endian as on the
build target. Reads outside the list default to 0; the theorems only rely on
in-bounds reads (see the frame lemmas). -/
def unitAt (bytes : List Nat) (i : Nat) : Nat :=
  bytes.getD (2 * i) 0 + 256 * bytes.getD (2 * i + 1) 0

/-- All code units of the buffer, in order. -/
def unitsList (bytes : List Nat) : List Nat :=
  (List.range (numUnits bytes)).map (unitAt bytes)

/-- Byte-wise comparison loop of `compare` (Stubloader.c lines 565-577),
iterated with fuel `n` from byte index `i`. -/
def compareBytesAux (a b : List Nat) : Nat → Nat → Bool
  | 0, _ => true
  | n + 1, i => if a.getD i 0 = b.getD i 0 then compareBytesAux a b n (i + 1) else false

/-- `compare(firstitem, seconditem, comparelength)` from Stubloader.c. -/
def compareBytes (a b : List Nat) (n : Nat) : Bool := compareBytesAux a b n 0

/-- Outcome of the byte-order-marker check (Stubloader.c lines 296-319). -/
inductive BomClass
  | littleEndian
  | bigEndian
  | invalid
deriving DecidableEq

/-- In-memory bytes of `UINT16 BOM_check = UTF16_BOM_LE` (0xFEFF) on the
little-endian target: FF FE. -/
def bomLEBytes : List Nat := [255, 254]

/-- In-memory bytes of `UTF16_BOM_BE` (0xFFFE) on the little-endian target:
FE FF. -/
def bomBEBytes : List Nat := [254, 255]

/-- The marker classification performed at Stubloader.c lines 296-319:
first `compare(KernelcmdArray, &BOM_check, 2)` against the little-endian
marker, then against the big-endian marker. -/
def bomClass (bytes : List Nat) : BomClass :=
  if compareBytes bytes bomLEBytes 2 then .littleEndian
  else if compareBytes bytes bomBEBytes 2 then .bigEndian
  else .invalid

/-- First-line scan (Stubloader.c lines 328-349): from unit index `i` with
`fuel` iterations left, look for `\n` (10) or `\r` (13); a bare `\n` sets
`FirstLineLength = i + 1`, a `\r` sets `FirstLineLength = i + 2` (the code
assumes a `\n` follows), and non-space units (≠ 32) are counted into
`KernelPathSize`. If the loop exhausts the buffer, `FirstLineLength`
keeps its initial value 0. Returns (FirstLineLength, KernelPathSize). -/
def scanFirstLineAux (bytes : List Nat) : Nat → Nat → Nat → Nat × Nat
  | 0, _, acc => (0, acc)
  | fuel + 1, i, acc =>
    if unitAt bytes i = 10 then (i + 1, acc)
    else if unitAt bytes i = 13 then (i + 1 + 1, acc)
    else scanFirstLineAux bytes fuel (i + 1) (if unitAt bytes i = 32 then acc else acc + 1)

/-- The first-line scan started at unit index 1 (skipping the marker), with
unit bound `n` (the source uses `FileSize >> 1`). -/
def firstLineScanN (bytes : List Nat) (n : Nat) : Nat × Nat :=
  scanFirstLineAux bytes (n - 1) 1 0

/-- `FirstLineLength` after the scan at Stubloader.c lines 325-349. -/
def firstLineLengthN (bytes : List Nat) (n : Nat) : Nat := (firstLineScanN bytes n).1

/-- `KernelPathLen` (the pre-null unit count of the kernel path) after the
scan at Stubloader.c lines 325-352. -/
def kernelPathLenN (bytes : List Nat) (n : Nat) : Nat := (firstLineScanN bytes n).2

/-- Command-line length count (Stubloader.c lines 359-370): from unit `j`
with `fuel` iterations left, count units until `\n` or `\r`. -/
def cmdlineCountAux (bytes : List Nat) : Nat → Nat → Nat → Nat
  | 0, _, acc => acc
  | fuel + 1, j, acc =>
    if unitAt bytes j = 10 ∨ unitAt bytes j = 13 then acc
    else cmdlineCountAux bytes fuel (j + 1) (acc + 1)

/-- `CmdlineLen` (Stubloader.c line 370): count from `FirstLineLength` up to
the unit bound `n`. -/
def cmdlineLenN (bytes : List Nat) (n : Nat) : Nat :=
  cmdlineCountAux bytes (n - firstLineLengthN bytes n) (firstLineLengthN bytes n) 0

/-- Command-line copy loop (Stubloader.c lines 411-419): collect units from
`j` until `\n` or `\r`, verbatim (spaces included). -/
def cmdlineCopyAux (bytes : List Nat) : Nat → Nat → List Nat
  | 0, _ => []
  | fuel + 1, j =>
    if unitAt bytes j = 10 ∨ unitAt bytes j = 13 then []
    else unitAt bytes j :: cmdlineCopyAux bytes fuel (j + 1)

/-- The `Cmdline` contents written by the copy loop (Stubloader.c lines
411-420), excluding the null terminator stored at `Cmdline[CmdlineLen]`. -/
def commandLineN (bytes : List Nat) (n : Nat) : List Nat :=
  cmdlineCopyAux bytes (n - firstLineLengthN bytes n) (firstLineLengthN bytes n)

/-- Kernel-path copy loop (Stubloader.c lines 396-407): for `i` from 1 while
`i < FirstLineLength`, stop at `\n`/`\r`, skip spaces, and otherwise store
`KernelPath[i-1] = KernelcmdArray[i]`. Modelled as the list of
(index, value) stores, in program order. Note the store index is `i - 1`
(the unit's offset in the line), not a compacted output position. -/
def kernelPathWritesAux (bytes : List Nat) : Nat → Nat → List (Nat × Nat)
  | 0, _ => []
  | fuel + 1, i =>
    if unitAt bytes i = 10 ∨ unitAt bytes i = 13 then []
    else if unitAt bytes i = 32 then kernelPathWritesAux bytes fuel (i + 1)
    else (i - 1, unitAt bytes i) :: kernelPathWritesAux bytes fuel (i + 1)

/-- The stores of the kernel-path copy loop, which runs `i` from 1 bounded by
`FirstLineLength`. -/
def kernelPathWritesN (bytes : List Nat) (n : Nat) : List (Nat × Nat) :=
  kernelPathWritesAux bytes (firstLineLengthN bytes n - 1) 1

/-- Contents of the `KernelPath` buffer after the copy loop and the final
`KernelPath[KernelPathLen] = 0` store (Stubloader.c line 408). The buffer
holds `KernelPathLen + 1` units (`KernelPathSize` bytes, line 352); a cell is
`none` when the loader never wrote it (uninitialized pool memory). The copy
loop stores to strictly increasing indices, so at most one store hits a
cell. -/
def kernelPathCellsN (bytes : List Nat) (n : Nat) : List (Option Nat) :=
  (List.range (kernelPathLenN bytes n + 1)).map (fun k =>
    if k = kernelPathLenN bytes n then some 0
    else ((kernelPathWritesN bytes n).filter (fun w => w.1 = k)).head?.map (fun w => w.2))

/-- Stores of the kernel-path copy loop that fall outside the allocated
`KernelPathLen + 1` cells (a heap overflow when nonempty). -/
def kernelPathOobN (bytes : List Nat) (n : Nat) : List (Nat × Nat) :=
  (kernelPathWritesN bytes n).filter (fun w => kernelPathLenN bytes n + 1 ≤ w.1)

/-- Parsed result: the `KernelPath` buffer cells (including its null
terminator, with `none` for never-written cells), the `Cmdline` contents
(null terminator excluded), and any out-of-bounds kernel-path stores. -/
structure BootSpecM where
  kernelPathCells : List (Option Nat)
  commandLine : List Nat
  oobWrites : List (Nat × Nat)
deriving DecidableEq

/-- Failure reasons of the marker check (spec §7 taxonomy; the code paths are
Stubloader.c lines 300-303 and 304-316). -/
inductive EncodingError
  | wrongEndianness
  | missingOrInvalidMarker
deriving DecidableEq

/-- The parse pipeline of Stubloader.c lines 296-420 with an explicit unit
bound `n`: marker classification, then line splitting. After a successful
marker check the code has no further failure exit (besides allocation
failures, modelled in the loader pipeline below). -/
def parseConfigN (bytes : List Nat) (n : Nat) : Except EncodingError BootSpecM :=
  match bomClass bytes with
  | .littleEndian =>
      .ok ⟨kernelPathCellsN bytes n, commandLineN bytes n, kernelPathOobN bytes n⟩
  | .bigEndian => .error .wrongEndianness
  | .invalid => .error .missingOrInvalidMarker

/-- The parse pipeline as executed: the unit bound is `FileSize >> 1`. -/
def parseConfig (bytes : List Nat) : Except EncodingError BootSpecM :=
  parseConfigN bytes (numUnits bytes)

/-- Short forms at the executed bound. -/
def firstLineLength (bytes : List Nat) : Nat := firstLineLengthN bytes (numUnits bytes)

def kernelPathLen (bytes : List Nat) : Nat := kernelPathLenN bytes (numUnits bytes)

def cmdlineLen (bytes : List Nat) : Nat := cmdlineLenN bytes (numUnits bytes)

/-- `CmdlineSize` (Stubloader.c lines 359-372): the counter is a `UINT32`, and
`CmdlineSize = (CmdlineSize + 1) << 1` is computed in `UINT32`, hence the
reductions modulo 2^32. -/
def cmdlineSizeBytes (bytes : List Nat) : Nat :=
  ((cmdlineLen bytes % 2 ^ 32) + 1) * 2 % 2 ^ 32

/-- The scan of `BootFilePath` at Stubloader.c lines 156-166: remember the
index of the last backslash (92) seen; `acc` starts at 0. -/
def lastBackslashAux : List Nat → Nat → Nat → Nat
  | [], _, acc => acc
  | u :: rest, i, acc => lastBackslashAux rest (i + 1) (if u = 92 then i else acc)

/-- `TxtFilePathPrefixLength` (Stubloader.c lines 156-168): the recorded index
plus one — the `+= 1` at line 168 is unconditional, so a path without any
backslash still yields 1, not 0. The path is the unit list before the null
terminator (no 0 units inside). -/
def txtFilePathPrefixLength (path : List Nat) : Nat :=
  lastBackslashAux path 0 0 + 1

/-- `CONST CHAR16 TxtFileName[14] = L"Kernelcmd.txt"` (Stubloader.c line 175),
including its null terminator, as code units. -/
def txtFileNameUnits : List Nat :=
  [75, 101, 114, 110, 101, 108, 99, 109, 100, 46, 116, 120, 116, 0]

/-- `TxtFilePath` as assembled by the two `CopyMem` calls (Stubloader.c lines
193-194): the first `TxtFilePathPrefixLength` units of `BootFilePath`
followed by the 14 units of `TxtFileName`. The source copies from the
null-terminated `BootFilePath` memory, so for an empty path the prefix unit
copied is the terminator itself — hence `path ++ [0]` below. -/
def txtFilePathUnits (path : List Nat) : List Nat :=
  (path ++ [0]).take (txtFilePathPrefixLength path) ++ txtFileNameUnits

/-- Modelled from the spec (§4.1): record the index of the last
path-separator during a single scan; `none` when the path has no
separator. Comparator for the refinement claims about SelfLocator. -/
def lastSepIdxAux : List Nat → Nat → Option Nat → Option Nat
  | [], _, best => best
  | u :: rest, i, best => lastSepIdxAux rest (i + 1) (if u = 92 then some i else best)

/-- Modelled from the spec (§4.1): the last-separator index of a path. -/
def lastSepIdx (path : List Nat) : Option Nat := lastSepIdxAux path 0 none

/-- Modelled from the spec (§4.1): the directory prefix including the
trailing separator, empty when no separator exists. -/
def specDirPrefixUnits (path : List Nat) : List Nat :=
  match lastSepIdx path with
  | none => []
  | some i => path.take (i + 1)

/-- Modelled from the spec (§4.3): the first line's contents with every space
(0x0020) code unit removed. Comparator for the claims about space
stripping. -/
def specStripSpaces (l : List Nat) : List Nat := l.filter (fun u => u ≠ 32)

/-- Little-endian byte encoding of a list of 16-bit code units. -/
def unitsToBytes : List Nat → List Nat
  | [] => []
  | u :: rest => u % 256 :: u / 256 :: unitsToBytes rest

/-- `EFI_ERROR(Status)`: the status has its top bit set (statuses are
`UINT64`; `EFI_SUCCESS` is 0 and warning codes are small positive values). -/
def efiError (s : Nat) : Bool := decide (2 ^ 63 ≤ s)

/-- The heap buffers `efi_main` allocates (directly via `AllocatePool`, or
via the library call `FileDevicePath`, which pool-allocates the device-path
descriptor). -/
inductive BufId
  | txtFilePath
  | fileInfo
  | kernelcmdArray
  | kernelPath
  | cmdline
  | fullDevicePath
deriving DecidableEq, Fintype

/-- The pool type passed to `AllocatePool`. All of `efi_main`'s own
allocations use `EfiBootServicesData` except `Cmdline`, which uses
`EfiLoaderData` (Stubloader.c line 388) so that it persists into the started
image; `FileDevicePath` allocates from `EfiBootServicesData`. -/
inductive Pool
  | bootServicesData
  | loaderData
deriving DecidableEq, Fintype

/-- Which `return` statement of `efi_main` ended the invocation. The suffix
`Err` marks the early-return error paths; `bomErr` is the return at
Stubloader.c line 318 after a failed marker check; `startImageReturn` is the
final return at line 511 after `StartImage` came back. -/
inductive ExitPoint
  | openLoadedImageErr
  | openFileSystemErr
  | openVolumeErr
  | allocTxtFilePathErr
  | openKernelcmdErr
  | allocFileInfoErr
  | getInfoErr
  | allocKernelcmdArrayErr
  | readErr
  | bomErr
  | allocKernelPathErr
  | allocCmdlineErr
  | freeTxtFilePathErr
  | freeKernelPathErr
  | freeKernelcmdArrayErr
  | freeFileInfoErr
  | loadImageErr
  | freeFullDevicePathErr
  | openLoadedKernelErr
  | startImageReturn
deriving DecidableEq, Fintype

/-- Outcomes of the firmware calls `efi_main` makes, in program order: each
fallible call's returned status, the loader's own invocation path
(`BootFilePath`, units before the null terminator), and the configuration
file contents delivered by `Read` (the reported `FileSize` after the read is
`fileBytes.length`). -/
structure Env where
  openLoadedImage : Nat
  openFileSystem : Nat
  openVolume : Nat
  bootFilePath : List Nat
  allocTxtFilePath : Nat
  openKernelcmd : Nat
  allocFileInfo : Nat
  getInfo : Nat
  allocKernelcmdArray : Nat
  readFile : Nat
  fileBytes : List Nat
  allocKernelPath : Nat
  allocCmdline : Nat
  freeTxtFilePath : Nat
  freeKernelPath : Nat
  freeKernelcmdArray : Nat
  freeFileInfo : Nat
  loadImage : Nat
  freeFullDevicePath : Nat
  openLoadedKernel : Nat
  startImage : Nat

/-- Observable outcome of one `efi_main` invocation: the returned status, the
`return` that produced it, the successful allocations in order (with the pool
type of each), the successful `FreePool` calls in order, and the
`LoadOptions`/`LoadOptionsSize` fields of the loaded kernel image, when the
run got far enough to set them (Stubloader.c lines 496-497). -/
structure RunResult where
  status : Nat
  exitPoint : ExitPoint
  allocated : List (BufId × Pool)
  freed : List BufId
  loadOptions : Option BufId
  loadOptionsSize : Option Nat
deriving DecidableEq

/-- Which `return` of `efi_main` the given call outcomes lead to, following
the guard chain of Stubloader.c lines 74-512 in program order: each
`if(EFI_ERROR(Status)) return Status;` exits early, the failed marker check
exits at line 318, and otherwise control reaches the final return after
`StartImage`. The first `GetInfo` call (line 220), whose status is
intentionally ignored and immediately overwritten, is folded into
`getInfo`. -/
def exitOf (env : Env) : ExitPoint :=
  if efiError env.openLoadedImage then .openLoadedImageErr
  else if efiError env.openFileSystem then .openFileSystemErr
  else if efiError env.openVolume then .openVolumeErr
  else if efiError env.allocTxtFilePath then .allocTxtFilePathErr
  else if efiError env.openKernelcmd then .openKernelcmdErr
  else if efiError env.allocFileInfo then .allocFileInfoErr
  else if efiError env.getInfo then .getInfoErr
  else if efiError env.allocKernelcmdArray then .allocKernelcmdArrayErr
  else if efiError env.readFile then .readErr
  else if bomClass env.fileBytes ≠ .littleEndian then .bomErr
  else if efiError env.allocKernelPath then .allocKernelPathErr
  else if efiError env.allocCmdline then .allocCmdlineErr
  else if efiError env.freeTxtFilePath then .freeTxtFilePathErr
  else if efiError env.freeKernelPath then .freeKernelPathErr
  else if efiError env.freeKernelcmdArray then .freeKernelcmdArrayErr
  else if efiError env.freeFileInfo then .freeFileInfoErr
  else if efiError env.loadImage then .loadImageErr
  else if efiError env.freeFullDevicePath then .freeFullDevicePathErr
  else if efiError env.openLoadedKernel then .openLoadedKernelErr
  else .startImageReturn

/-- The observable state at each `return` of `efi_main`: the returned status,
the successful allocations made before that point (in order, with the pool
type each `AllocatePool` call names in the source), the successful `FreePool`
calls made before that point, and the `LoadOptions` fields, set only on the
path that reaches `StartImage` (Stubloader.c lines 496-497). Note the
`bomErr` arm: the `return Status` at line 318 returns the status of the
preceding successful `Read`. -/
def exitResult (env : Env) : ExitPoint → RunResult
  | .openLoadedImageErr => ⟨env.openLoadedImage, .openLoadedImageErr, [], [], none, none⟩
  | .openFileSystemErr => ⟨env.openFileSystem, .openFileSystemErr, [], [], none, none⟩
  | .openVolumeErr => ⟨env.openVolume, .openVolumeErr, [], [], none, none⟩
  | .allocTxtFilePathErr => ⟨env.allocTxtFilePath, .allocTxtFilePathErr, [], [], none, none⟩
  | .openKernelcmdErr => ⟨env.openKernelcmd, .openKernelcmdErr,
      [(.txtFilePath, .bootServicesData)], [], none, none⟩
  | .allocFileInfoErr => ⟨env.allocFileInfo, .allocFileInfoErr,
      [(.txtFilePath, .bootServicesData)], [], none, none⟩
  | .getInfoErr => ⟨env.getInfo, .getInfoErr,
      [(.txtFilePath, .bootServicesData), (.fileInfo, .bootServicesData)],
      [], none, none⟩
  | .allocKernelcmdArrayErr => ⟨env.allocKernelcmdArray, .allocKernelcmdArrayErr,
      [(.txtFilePath, .bootServicesData), (.fileInfo, .bootServicesData)],
      [], none, none⟩
  | .readErr => ⟨env.readFile, .readErr,
      [(.txtFilePath, .bootServicesData), (.fileInfo, .bootServicesData),
       (.kernelcmdArray, .bootServicesData)], [], none, none⟩
  | .bomErr => ⟨env.readFile, .bomErr,
      [(.txtFilePath, .bootServicesData), (.fileInfo, .bootServicesData),
       (.kernelcmdArray, .bootServicesData)], [], none, none⟩
  | .allocKernelPathErr => ⟨env.allocKernelPath, .allocKernelPathErr,
      [(.txtFilePath, .bootServicesData), (.fileInfo, .bootServicesData),
       (.kernelcmdArray, .bootServicesData)], [], none, none⟩
  | .allocCmdlineErr => ⟨env.allocCmdline, .allocCmdlineErr,
      [(.txtFilePath, .bootServicesData), (.fileInfo, .bootServicesData),
       (.kernelcmdArray, .bootServicesData), (.kernelPath, .bootServicesData)],
      [], none, none⟩
  | .freeTxtFilePathErr => ⟨env.freeTxtFilePath, .freeTxtFilePathErr,
      [(.txtFilePath, .bootServicesData), (.fileInfo, .bootServicesData),
       (.kernelcmdArray, .bootServicesData), (.kernelPath, .bootServicesData),
       (.cmdline, .loaderData), (.fullDevicePath, .bootServicesData)],
      [], none, none⟩
  | .freeKernelPathErr => ⟨env.freeKernelPath, .freeKernelPathErr,
      [(.txtFilePath, .bootServicesData), (.fileInfo, .bootServicesData),
       (.kernelcmdArray, .bootServicesData), (.kernelPath, .bootServicesData),
       (.cmdline, .loaderData), (.fullDevicePath, .bootServicesData)],
      [.txtFilePath], none, none⟩
  | .freeKernelcmdArrayErr => ⟨env.freeKernelcmdArray, .freeKernelcmdArrayErr,
      [(.txtFilePath, .bootServicesData), (.fileInfo, .bootServicesData),
       (.kernelcmdArray, .bootServicesData), (.kernelPath, .bootServicesData),
       (.cmdline, .loaderData), (.fullDevicePath, .bootServicesData)],
      [.txtFilePath, .kernelPath], none, none⟩
  | .freeFileInfoErr => ⟨env.freeFileInfo, .freeFileInfoErr,
      [(.txtFilePath, .bootServicesData), (.fileInfo, .bootServicesData),
       (.kernelcmdArray, .bootServicesData), (.kernelPath, .bootServicesData),
       (.cmdline, .loaderData), (.fullDevicePath, .bootServicesData)],
      [.txtFilePath, .kernelPath, .kernelcmdArray], none, none⟩
  | .loadImageErr => ⟨env.loadImage, .loadImageErr,
      [(.txtFilePath, .bootServicesData), (.fileInfo, .bootServicesData),
       (.kernelcmdArray, .bootServicesData), (.kernelPath, .bootServicesData),
       (.cmdline, .loaderData), (.fullDevicePath, .bootServicesData)],
      [.txtFilePath, .kernelPath, .kernelcmdArray, .fileInfo], none, none⟩
  | .freeFullDevicePathErr => ⟨env.freeFullDevicePath, .freeFullDevicePathErr,
      [(.txtFilePath, .bootServicesData), (.fileInfo, .bootServicesData),
       (.kernelcmdArray, .bootServicesData), (.kernelPath, .bootServicesData),
       (.cmdline, .loaderData), (.fullDevicePath, .bootServicesData)],
      [.txtFilePath, .kernelPath, .kernelcmdArray, .fileInfo], none, none⟩
  | .openLoadedKernelErr => ⟨env.openLoadedKernel, .openLoadedKernelErr,
      [(.txtFilePath, .bootServicesData), (.fileInfo, .bootServicesData),
       (.kernelcmdArray, .bootServicesData), (.kernelPath, .bootServicesData),
       (.cmdline, .loaderData), (.fullDevicePath, .bootServicesData)],
      [.txtFilePath, .kernelPath, .kernelcmdArray, .fileInfo, .fullDevicePath],
      none, none⟩
  | .startImageReturn => ⟨env.startImage, .startImageReturn,
      [(.txtFilePath, .bootServicesData), (.fileInfo, .bootServicesData),
       (.kernelcmdArray, .bootServicesData), (.kernelPath, .bootServicesData),
       (.cmdline, .loaderData), (.fullDevicePath, .bootServicesData)],
      [.txtFilePath, .kernelPath, .kernelcmdArray, .fileInfo, .fullDevicePath],
      some .cmdline, some (cmdlineSizeBytes env.fileBytes)⟩

/-- One full `efi_main` invocation: the observable outcome at the `return`
that the guard chain reaches. -/
def runLoader (env : Env) : RunResult := exitResult env (exitOf env)

/-- Replacement of the 16-bit code unit at unit index `i` by `v` (stored
little-endian), leaving every other byte unchanged. Used to state that a
parse result does not depend on a particular unit. -/
def setUnit (bytes : List Nat) (i v : Nat) : List Nat :=
  (bytes.set (2 * i) (v % 256)).set (2 * i + 1) (v / 256)

/-! ### Concrete inputs -/

/-- Configuration buffer: native marker, first line `a b` (a space between
two letters) terminated by a bare `\n`, second line `x` terminated by `\n`. -/
def c1Bytes : List Nat := [255, 254] ++ unitsToBytes [97, 32, 98, 10, 120, 10]

/-- Configuration buffer with a valid native marker whose single line `a` has
no terminator before the end of the buffer. -/
def c2Bytes : List Nat := [255, 254, 97, 0]

/-- An `Env` whose firmware calls all succeed with status 0 (`EFI_SUCCESS`),
with an empty invocation path and empty file, as a base for overrides. -/
def zeroEnv : Env :=
  ⟨0, 0, 0, [], 0, 0, 0, 0, 0, 0, [], 0, 0, 0, 0, 0, 0, 0, 0, 0, 0⟩

/-- A run in which every firmware call succeeds with `EFI_SUCCESS` but the
configuration file starts with two zero bytes: no marker at all. -/
def c4Env : Env := { zeroEnv with fileBytes := [0, 0, 10, 0] }

/-- A run in which opening `Kernelcmd.txt` fails with `EFI_NOT_FOUND`
(0x8000000000000000 + 14) after `ConfigFilePath` was allocated. -/
def c5Env : Env := { zeroEnv with openKernelcmd := 2 ^ 63 + 14 }

/-- Code units of `\EFI\ubuntu\vmlinuz.efi`. -/
def c7PathUnits : List Nat :=
  [92, 69, 70, 73, 92, 117, 98, 117, 110, 116, 117, 92,
   118, 109, 108, 105, 110, 117, 122, 46, 101, 102, 105]

/-- Code units of `root=/dev/sda1 ro`. -/
def c7CmdUnits : List Nat :=
  [114, 111, 111, 116, 61, 47, 100, 101, 118, 47, 115, 100, 97, 49, 32, 114, 111]

/-- The configuration buffer of claim C7: native marker, the kernel path line
terminated by `\n`, the command line terminated by `\n`, and the trailing
blank third line (the empty remainder after the final terminator). -/
def c7Bytes : List Nat :=
  [255, 254] ++ unitsToBytes (c7PathUnits ++ [10] ++ c7CmdUnits ++ [10])

/-- A fully successful run: every firmware status is `EFI_SUCCESS`, the
loader was invoked as `\EFI\BOOT\BOOTX64.EFI`, and the configuration file is
the well-formed example buffer. -/
def goodEnv : Env :=
  { zeroEnv with
    bootFilePath := [92, 69, 70, 73, 92, 66, 79, 79, 84, 92,
                     66, 79, 79, 84, 88, 54, 52, 46, 69, 70, 73]
    fileBytes := c7Bytes }

/-- Configuration buffer for the lone-carriage-return case: native marker,
then the units `A`, `\r`, `Z`, `c`, `\n` — the `\r` at unit index 2 is
followed by `Z` (90), not by `\n`. -/
def c10Bytes : List Nat := [255, 254] ++ unitsToBytes [65, 13, 90, 99, 10]

/-! ### Helper lemmas: SelfLocator -/

theorem lastSepIdxAux_shift (rest : List Nat) :
    ∀ i x acc, (lastSepIdxAux rest i (some x)).getD acc = (lastSepIdxAux rest i none).getD x := by
  induction rest with
  | nil => intro i x acc; rfl
  | cons u rest ih =>
    intro i x acc
    by_cases h : u = 92
    · simp only [lastSepIdxAux, h, if_true, reduceIte]
      rw [ih (i + 1) i acc, ih (i + 1) i x]
    · simp only [lastSepIdxAux, if_neg h]
      exact ih (i + 1) x acc

theorem lastBackslashAux_eq (path : List Nat) :
    ∀ i acc, lastBackslashAux path i acc = (lastSepIdxAux path i none).getD acc := by
  induction path with
  | nil => intro i acc; rfl
  | cons u rest ih =>
    intro i acc
    by_cases h : u = 92
    · simp only [lastBackslashAux, lastSepIdxAux, h, if_true, reduceIte]
      rw [ih (i + 1) i, lastSepIdxAux_shift rest (i + 1) i acc]
    · simp only [lastBackslashAux, lastSepIdxAux, if_neg h]
      exact ih (i + 1) acc

theorem txtFilePathPrefixLength_eq (path : List Nat) :
    txtFilePathPrefixLength path = (lastSepIdx path).getD 0 + 1 := by
  unfold txtFilePathPrefixLength lastSepIdx
  rw [lastBackslashAux_eq]

theorem lastSepIdxAux_bound (path : List Nat) :
    ∀ i best j, lastSepIdxAux path i best = some j →
      best = some j ∨ (i ≤ j ∧ j < i + path.length) := by
  induction path with
  | nil => intro i best j h; exact Or.inl h
  | cons u rest ih =>
    intro i best j h
    simp only [lastSepIdxAux] at h
    rcases ih (i + 1) _ j h with h2 | h2
    · by_cases hu : u = 92
      · rw [if_pos hu] at h2
        have hij : i = j := Option.some.inj h2
        right
        simp only [List.length_cons]
        omega
      · rw [if_neg hu] at h2
        exact Or.inl h2
    · right
      simp only [List.length_cons]
      omega

theorem lastSepIdx_lt_length (path : List Nat) (i : Nat) (h : lastSepIdx path = some i) :
    i < path.length := by
  rcases lastSepIdxAux_bound path 0 none i h with h2 | h2
  · exact absurd h2 (by simp)
  · omega

/-! ### Claim C3 -/

/-- Claim C3, counterexample: for the bare filename consisting of the single
unit 65 (no backslash separator anywhere), the computed directory-prefix
length is 1, not 0 as the claim states — the unconditional `+= 1` at
Stubloader.c line 168 includes the path's first unit in the prefix. -/
theorem c3_bare_filename_prefix_not_zero :
    (92 ∉ ([65] : List Nat)) ∧ txtFilePathPrefixLength [65] = 1 := by decide

/-- Claim C3, amended: SelfLocator never fails; when the invocation path
contains a separator the prefix length is the index of the last separator
plus one, but for a separator-free path the prefix length is 1 (the first
code unit is treated as the prefix), not 0. -/
theorem c3_prefix_length_amended (path : List Nat) :
    (lastSepIdx path = none → txtFilePathPrefixLength path = 1) ∧
    (∀ i, lastSepIdx path = some i → txtFilePathPrefixLength path = i + 1) := by
  constructor
  · intro h
    rw [txtFilePathPrefixLength_eq, h]
    rfl
  · intro i h
    rw [txtFilePathPrefixLength_eq, h]
    rfl

/-- Claim C3, witness: the amended statement evaluated on the separator-free
path [65] and on the path [92, 65] whose last separator is at index 0. -/
theorem c3_prefix_length_amended_witness :
    txtFilePathPrefixLength [65] = 1 ∧ txtFilePathPrefixLength [92, 65] = 0 + 1 :=
  ⟨(c3_prefix_length_amended [65]).1 (by decide),
   (c3_prefix_length_amended [92, 65]).2 0 (by decide)⟩

/-! ### Claim C8 -/

/-- Claim C8, counterexample: for the separator-free invocation path [65] the
constructed configuration path is [65] ++ "Kernelcmd.txt\0" — the first code
unit of the bare filename is used as the prefix — which differs from the
directory prefix (empty) concatenated with the fixed filename. -/
theorem c8_bare_filename_config_path :
    txtFilePathUnits [65] ≠ specDirPrefixUnits [65] ++ txtFileNameUnits := by decide

/-- Claim C8, amended: for every invocation path that contains at least one
separator, `ConfigFilePath` equals the directory prefix (up to and including
the last separator) concatenated with the fixed filename `Kernelcmd.txt`; it
is null-terminated and its unit count is the prefix length plus 14 (the 13
filename units plus the terminator). For a separator-free path the code
instead uses the path's first unit as the prefix. -/
theorem c8_config_path_amended (path : List Nat) (i : Nat)
    (h : lastSepIdx path = some i) :
    txtFilePathUnits path = specDirPrefixUnits path ++ txtFileNameUnits ∧
    (txtFilePathUnits path).length = (i + 1) + 14 ∧
    (txtFilePathUnits path).getLast? = some 0 := by
  have hlen : i < path.length := lastSepIdx_lt_length path i h
  have hpre : txtFilePathPrefixLength path = i + 1 := by
    rw [txtFilePathPrefixLength_eq, h]
    rfl
  have htake : (path ++ [0]).take (i + 1) = path.take (i + 1) :=
    List.take_append_of_le_length (by omega)
  have hmain : txtFilePathUnits path = path.take (i + 1) ++ txtFileNameUnits := by
    unfold txtFilePathUnits
    rw [hpre, htake]
  refine ⟨?_, ?_, ?_⟩
  · rw [hmain]
    unfold specDirPrefixUnits
    rw [h]
  · rw [hmain, List.length_append, List.length_take]
    have : min (i + 1) path.length = i + 1 := by omega
    rw [this]
    rfl
  · rw [hmain, List.getLast?_append]
    rfl

/-- Claim C8, witness: the amended statement evaluated on the path [92, 65]
(a file named "A" at the volume root), whose last separator is at index 0. -/
theorem c8_config_path_amended_witness :
    txtFilePathUnits [92, 65] = specDirPrefixUnits [92, 65] ++ txtFileNameUnits ∧
    (txtFilePathUnits [92, 65]).length = (0 + 1) + 14 ∧
    (txtFilePathUnits [92, 65]).getLast? = some 0 :=
  c8_config_path_amended [92, 65] 0 (by decide)

/-! ### Closed evaluation theorems -/

/-- Claim C1 (code bug, evaluation): on a first line containing a space, the
produced `KernelPath` buffer is [some 97, none, some 0] — cell 0 holds the
first letter, cell 1 was never written (uninitialized pool memory, because
the copy at Stubloader.c line 405 stores to the unit's original line offset
`i - 1` instead of a compacted position), and the null terminator at the
compacted length overwrote the second letter. This differs from the
space-stripped line [97, 98] null-terminated that the claim requires, so the
claim fails on the code while the command line is still copied verbatim. -/
theorem c1_space_stripping_bug_eval :
    parseConfig c1Bytes = .ok ⟨[some 97, none, some 0], [120], []⟩ ∧
    [some 97, none, some 0] ≠ (specStripSpaces [97, 32, 98] ++ [0]).map some :=
  ⟨rfl, by decide⟩

/-- Claim C2, counterexample: on a buffer whose first line has no terminator,
parsing does not fail at all — it produces a result (`FirstLineLength`
stays 0, the kernel path buffer is left unwritten except for its null
terminator, and the command-line scan restarts at unit 0, so the marker
0xFEFF = 65279 itself lands in `CommandLine`). The claimed
`EncodingError{MissingLineTerminator}` does not exist in the code. -/
theorem c2_no_terminator_parses_ok :
    parseConfig c2Bytes = .ok ⟨[none, some 0], [65279, 97], []⟩ ∧
    firstLineLength c2Bytes = 0 :=
  ⟨rfl, rfl⟩

/-- Claim C4 (code bug, evaluation): when the marker check fails after a
successful `Read`, the `return Status` at Stubloader.c line 318 returns the
prevailing status of that successful `Read` — `EFI_SUCCESS` (0), which is
not an error status. The run failed (it exited at the marker check without
loading anything) yet reports success to the firmware. -/
theorem c4_marker_failure_returns_success :
    (runLoader c4Env).exitPoint = ExitPoint.bomErr ∧
    (runLoader c4Env).status = 0 ∧
    efiError (runLoader c4Env).status = false :=
  ⟨rfl, rfl, rfl⟩

/-- Claim C5 (code bug, evaluation): when the configuration file is missing,
the early return at Stubloader.c line 210 exits with `ConfigFilePath`
(`TxtFilePath`, allocated at line 182) still live and no `FreePool` call
made — the buffer is leaked on this error path, contradicting the claim that
every allocated buffer is released exactly once on every exit path. -/
theorem c5_open_failure_leaks_config_path :
    (runLoader c5Env).allocated = [(BufId.txtFilePath, Pool.bootServicesData)] ∧
    (runLoader c5Env).freed = [] ∧
    efiError (runLoader c5Env).status = true :=
  ⟨rfl, rfl, rfl⟩

/-- Claim C7, confirmed: parsing the example buffer yields exactly the fully
initialized, null-terminated kernel path `\EFI\ubuntu\vmlinuz.efi` (every
cell written, no gaps, no out-of-bounds stores — the line has no spaces) and
the verbatim command line `root=/dev/sda1 ro`, spaces preserved. -/
theorem c7_example_parse :
    parseConfig c7Bytes = .ok ⟨(c7PathUnits ++ [0]).map some, c7CmdUnits, []⟩ :=
  rfl

/-! ### Helper lemmas: parser scans -/

theorem unitAt_lt_of_numUnits (bytes : List Nat) (i : Nat) (h : i < numUnits bytes) :
    2 * i + 1 < bytes.length := by
  unfold numUnits at h
  omega

theorem unitAt_append (bytes extra : List Nat) (i : Nat) (h : i < numUnits bytes) :
    unitAt (bytes ++ extra) i = unitAt bytes i := by
  have hb := unitAt_lt_of_numUnits bytes i h
  unfold unitAt
  rw [List.getD_append _ _ _ _ (by omega), List.getD_append _ _ _ _ (by omega)]

theorem bomClass_congr (b1 b2 : List Nat) (h0 : b1.getD 0 0 = b2.getD 0 0)
    (h1 : b1.getD 1 0 = b2.getD 1 0) : bomClass b1 = bomClass b2 := by
  simp only [bomClass, compareBytes, compareBytesAux, h0, h1]

/-- The first-line scan gives equal results on two buffers that agree at
every unit position the scan can actually reach: position `j` is reachable
only when no terminator occurs at positions `[i, j)` of the first buffer. -/
theorem scanFirstLineAux_congr (b1 b2 : List Nat) :
    ∀ fuel i acc,
      (∀ j, i ≤ j → j < i + fuel →
        (∀ t, i ≤ t → t < j → unitAt b1 t ≠ 10 ∧ unitAt b1 t ≠ 13) →
        unitAt b1 j = unitAt b2 j) →
      scanFirstLineAux b1 fuel i acc = scanFirstLineAux b2 fuel i acc := by
  intro fuel
  induction fuel with
  | zero => intro i acc _; rfl
  | succ n ih =>
    intro i acc h
    have hi : unitAt b1 i = unitAt b2 i :=
      h i le_rfl (by omega)
        (fun t ht1 ht2 => absurd (Nat.lt_of_le_of_lt ht1 ht2) (lt_irrefl i))
    simp only [scanFirstLineAux, ← hi]
    by_cases h10 : unitAt b1 i = 10
    · simp [h10]
    · by_cases h13 : unitAt b1 i = 13
      · simp [h10, h13]
      · simp only [if_neg h10, if_neg h13]
        refine ih (i + 1) _ (fun j hj1 hj2 hnt => h j (by omega) (by omega) ?_)
        intro t ht1 ht2
        by_cases hti : t = i
        · subst hti; exact ⟨h10, h13⟩
        · exact hnt t (by omega) ht2

/-- When no terminator occurs in the scanned range, `FirstLineLength` keeps
its initial value 0 (the `for` loop at Stubloader.c lines 328-349 never
executes its `break`). -/
theorem scanFirstLineAux_fst_noTerm (b : List Nat) :
    ∀ fuel i acc,
      (∀ t, i ≤ t → t < i + fuel → unitAt b t ≠ 10 ∧ unitAt b t ≠ 13) →
      (scanFirstLineAux b fuel i acc).1 = 0 := by
  intro fuel
  induction fuel with
  | zero => intro i acc _; rfl
  | succ n ih =>
    intro i acc h
    have hi := h i le_rfl (by omega)
    simp only [scanFirstLineAux, if_neg hi.1, if_neg hi.2]
    exact ih (i + 1) _ (fun t ht1 ht2 => h t (by omega) (by omega))

/-- When the first terminator in the scanned range is a `\r` at position `k`,
the scan sets `FirstLineLength = k + 2`, regardless of what follows the
`\r` (Stubloader.c lines 337-343). -/
theorem scanFirstLineAux_fst_cr (b : List Nat) :
    ∀ fuel i acc k, i ≤ k → k < i + fuel →
      (∀ t, i ≤ t → t < k → unitAt b t ≠ 10 ∧ unitAt b t ≠ 13) →
      unitAt b k = 13 →
      (scanFirstLineAux b fuel i acc).1 = k + 2 := by
  intro fuel
  induction fuel with
  | zero => intro i acc k hk1 hk2 _ _; omega
  | succ n ih =>
    intro i acc k hk1 hk2 hnt hcr
    by_cases hik : i = k
    · subst hik
      simp [scanFirstLineAux, hcr]
    · have hi := hnt i le_rfl (by omega)
      simp only [scanFirstLineAux, if_neg hi.1, if_neg hi.2]
      exact ih (i + 1) _ k (by omega) (by omega) (fun t ht1 ht2 => hnt t (by omega) ht2) hcr

/-- Either the scanned range contains no terminator (and `FirstLineLength`
stays 0), or there is a first terminator position inside the range. -/
theorem scanFirstLineAux_spec (b : List Nat) :
    ∀ fuel i acc,
      (scanFirstLineAux b fuel i acc).1 = 0 ∨
      ∃ k, i ≤ k ∧ k < i + fuel ∧
        (∀ t, i ≤ t → t < k → unitAt b t ≠ 10 ∧ unitAt b t ≠ 13) ∧
        (unitAt b k = 10 ∨ unitAt b k = 13) := by
  intro fuel
  induction fuel with
  | zero => intro i acc; exact Or.inl rfl
  | succ n ih =>
    intro i acc
    by_cases h10 : unitAt b i = 10
    · exact Or.inr ⟨i, le_rfl, by omega,
        fun t ht1 ht2 => absurd (Nat.lt_of_le_of_lt ht1 ht2) (lt_irrefl i), Or.inl h10⟩
    · by_cases h13 : unitAt b i = 13
      · exact Or.inr ⟨i, le_rfl, by omega,
          fun t ht1 ht2 => absurd (Nat.lt_of_le_of_lt ht1 ht2) (lt_irrefl i), Or.inr h13⟩
      · rcases ih (i + 1) (if unitAt b i = 32 then acc else acc + 1) with hL | ⟨k, hk1, hk2, hnt, hterm⟩
        · left
          simp only [scanFirstLineAux, if_neg h10, if_neg h13]
          exact hL
        · refine Or.inr ⟨k, by omega, by omega, ?_, hterm⟩
          intro t ht1 ht2
          by_cases hti : t = i
          · subst hti; exact ⟨h10, h13⟩
          · exact hnt t (by omega) ht2

/-- The command-line counting loop gives equal results on buffers that agree
on the scanned range. -/
theorem cmdlineCountAux_congr (b1 b2 : List Nat) :
    ∀ fuel j acc,
      (∀ t, j ≤ t → t < j + fuel → unitAt b1 t = unitAt b2 t) →
      cmdlineCountAux b1 fuel j acc = cmdlineCountAux b2 fuel j acc := by
  intro fuel
  induction fuel with
  | zero => intro j acc _; rfl
  | succ n ih =>
    intro j acc h
    have hj : unitAt b1 j = unitAt b2 j := h j le_rfl (by omega)
    simp only [cmdlineCountAux, ← hj]
    by_cases hterm : unitAt b1 j = 10 ∨ unitAt b1 j = 13
    · simp [hterm]
    · simp only [if_neg hterm]
      exact ih (j + 1) _ (fun t ht1 ht2 => h t (by omega) (by omega))

/-- The command-line copy loop gives equal results on buffers that agree on
the scanned range. -/
theorem cmdlineCopyAux_congr (b1 b2 : List Nat) :
    ∀ fuel j,
      (∀ t, j ≤ t → t < j + fuel → unitAt b1 t = unitAt b2 t) →
      cmdlineCopyAux b1 fuel j = cmdlineCopyAux b2 fuel j := by
  intro fuel
  induction fuel with
  | zero => intro j _; rfl
  | succ n ih =>
    intro j h
    have hj : unitAt b1 j = unitAt b2 j := h j le_rfl (by omega)
    simp only [cmdlineCopyAux, ← hj]
    by_cases hterm : unitAt b1 j = 10 ∨ unitAt b1 j = 13
    · simp [hterm]
    · simp only [if_neg hterm]
      rw [ih (j + 1) (fun t ht1 ht2 => h t (by omega) (by omega))]

/-- When no terminator occurs in the copied range, the command-line copy
loop copies the whole range verbatim. -/
theorem cmdlineCopyAux_noTerm (b : List Nat) :
    ∀ fuel j,
      (∀ t, j ≤ t → t < j + fuel → unitAt b t ≠ 10 ∧ unitAt b t ≠ 13) →
      cmdlineCopyAux b fuel j = (List.range fuel).map (fun s => unitAt b (j + s)) := by
  intro fuel
  induction fuel with
  | zero => intro j _; rfl
  | succ n ih =>
    intro j h
    have hj := h j le_rfl (by omega)
    have hterm : ¬(unitAt b j = 10 ∨ unitAt b j = 13) := by
      intro hc
      rcases hc with hc | hc
      · exact hj.1 hc
      · exact hj.2 hc
    simp only [cmdlineCopyAux, if_neg hterm]
    rw [List.range_succ_eq_map, List.map_cons, List.map_map,
      ih (j + 1) (fun t ht1 ht2 => h t (by omega) (by omega))]
    refine congrArg₂ _ (by rw [Nat.add_zero]) (List.map_congr_left ?_)
    intro s _
    simp only [Function.comp_apply]
    congr 1
    omega


/-- The kernel-path copy loop gives equal results on two buffers that agree
at every reachable unit position (no terminator before it in the first
buffer). -/
theorem kernelPathWritesAux_congr (b1 b2 : List Nat) :
    ∀ fuel i,
      (∀ j, i ≤ j → j < i + fuel →
        (∀ t, i ≤ t → t < j → unitAt b1 t ≠ 10 ∧ unitAt b1 t ≠ 13) →
        unitAt b1 j = unitAt b2 j) →
      kernelPathWritesAux b1 fuel i = kernelPathWritesAux b2 fuel i := by
  intro fuel
  induction fuel with
  | zero => intro i _; rfl
  | succ n ih =>
    intro i h
    have hi : unitAt b1 i = unitAt b2 i :=
      h i le_rfl (by omega)
        (fun t ht1 ht2 => absurd (Nat.lt_of_le_of_lt ht1 ht2) (lt_irrefl i))
    simp only [kernelPathWritesAux, ← hi]
    by_cases hterm : unitAt b1 i = 10 ∨ unitAt b1 i = 13
    · simp [hterm]
    · have hrec : kernelPathWritesAux b1 n (i + 1) = kernelPathWritesAux b2 n (i + 1) := by
        refine ih (i + 1) (fun j hj1 hj2 hnt => h j (by omega) (by omega) ?_)
        intro t ht1 ht2
        by_cases hti : t = i
        · subst hti
          exact ⟨fun hc => hterm (Or.inl hc), fun hc => hterm (Or.inr hc)⟩
        · exact hnt t (by omega) ht2
      simp only [if_neg hterm]
      by_cases hsp : unitAt b1 i = 32
      · simp [hsp, hrec]
      · simp [hsp, hrec]

/-- The cell map of an all-unwritten kernel-path buffer: only the final null
store is visible. -/
theorem map_range_if_last (len : Nat) :
    (List.range (len + 1)).map (fun k => if k = len then (some 0 : Option Nat) else none) =
    List.replicate len none ++ [some 0] := by
  rw [List.range_succ, List.map_append]
  refine congrArg₂ _ ?_ (by simp)
  refine List.eq_replicate_iff.mpr ⟨by simp, ?_⟩
  intro b hb
  rw [List.mem_map] at hb
  obtain ⟨k, hk, rfl⟩ := hb
  rw [List.mem_range] at hk
  rw [if_neg (by omega)]

/-- Two-byte `compare` against a two-byte pattern is the conjunction of the
two byte equalities. -/
theorem compareBytes2_true_iff (b0 b1 : Nat) (rest : List Nat) (p0 p1 : Nat) :
    compareBytes (b0 :: b1 :: rest) [p0, p1] 2 = true ↔ (b0 = p0 ∧ b1 = p1) := by
  by_cases h0 : b0 = p0 <;> by_cases h1 : b1 = p1 <;>
    simp [compareBytes, compareBytesAux, h0, h1]

/-- A successful little-endian marker check pins down the first two bytes. -/
theorem bomLE_elim (bytes : List Nat) (h : bomClass bytes = BomClass.littleEndian) :
    bytes.getD 0 0 = 255 ∧ bytes.getD 1 0 = 254 := by
  unfold bomClass at h
  by_cases hc : compareBytes bytes bomLEBytes 2 = true
  · simp only [compareBytes, compareBytesAux, bomLEBytes] at hc
    by_cases h0 : bytes.getD 0 0 = ([255, 254] : List Nat).getD 0 0
    · rw [if_pos h0] at hc
      by_cases h1 : bytes.getD 1 0 = ([255, 254] : List Nat).getD 1 0
      · exact ⟨h0, h1⟩
      · rw [if_neg h1] at hc
        exact absurd hc (by decide)
    · rw [if_neg h0] at hc
      exact absurd hc (by decide)
  · rw [if_neg hc] at h
    split at h <;> exact absurd h (by decide)

/-- A buffer whose second byte is 254 has at least two bytes. -/
theorem length_ge_two_of_getD_one (bytes : List Nat) (h : bytes.getD 1 0 = 254) :
    2 ≤ bytes.length := by
  by_contra hc
  rw [List.getD_eq_default _ _ (by omega)] at h
  exact absurd h (by decide)

theorem length_setUnit (b : List Nat) (i v : Nat) : (setUnit b i v).length = b.length := by
  simp [setUnit]

theorem numUnits_setUnit (b : List Nat) (i v : Nat) :
    numUnits (setUnit b i v) = numUnits b := by
  simp [numUnits, length_setUnit]

theorem getD_setUnit_ne (b : List Nat) (i v p : Nat) (h1 : p ≠ 2 * i) (h2 : p ≠ 2 * i + 1) :
    (setUnit b i v).getD p 0 = b.getD p 0 := by
  unfold setUnit
  rw [List.getD_eq_getElem?_getD, List.getElem?_set_ne (by omega),
    List.getElem?_set_ne (by omega), ← List.getD_eq_getElem?_getD]

theorem unitAt_setUnit_ne (b : List Nat) (i v j : Nat) (h : j ≠ i) :
    unitAt (setUnit b i v) j = unitAt b j := by
  unfold unitAt
  rw [getD_setUnit_ne b i v _ (by omega) (by omega),
    getD_setUnit_ne b i v _ (by omega) (by omega)]

/-- The whole parse depends only on the first `FileSize` bytes: appending
arbitrary junk beyond the reported size does not change the result — no
scan of the parse reads a code unit at or past the reported length. -/
theorem parseConfigN_append (bytes extra : List Nat) (hlen : 2 ≤ bytes.length) :
    parseConfigN (bytes ++ extra) (numUnits bytes) = parseConfig bytes := by
  have hn1 : 1 ≤ numUnits bytes := by unfold numUnits; omega
  have hbom : bomClass (bytes ++ extra) = bomClass bytes :=
    bomClass_congr _ _ (List.getD_append _ _ _ _ (by omega))
      (List.getD_append _ _ _ _ (by omega))
  have hagree : ∀ j, j < numUnits bytes → unitAt (bytes ++ extra) j = unitAt bytes j :=
    fun j hj => unitAt_append bytes extra j hj
  have hscan : firstLineScanN (bytes ++ extra) (numUnits bytes) =
      firstLineScanN bytes (numUnits bytes) := by
    unfold firstLineScanN
    exact scanFirstLineAux_congr _ _ _ 1 0 (fun j hj1 hj2 _ => hagree j (by omega))
  have hfll : firstLineLengthN (bytes ++ extra) (numUnits bytes) =
      firstLineLengthN bytes (numUnits bytes) := by
    unfold firstLineLengthN
    rw [hscan]
  have hkpl : kernelPathLenN (bytes ++ extra) (numUnits bytes) =
      kernelPathLenN bytes (numUnits bytes) := by
    unfold kernelPathLenN
    rw [hscan]
  have hcopy : commandLineN (bytes ++ extra) (numUnits bytes) =
      commandLineN bytes (numUnits bytes) := by
    unfold commandLineN
    rw [hfll]
    exact cmdlineCopyAux_congr _ _ _ _ (fun t ht1 ht2 => hagree t (by omega))
  have hwrites : kernelPathWritesN (bytes ++ extra) (numUnits bytes) =
      kernelPathWritesN bytes (numUnits bytes) := by
    unfold kernelPathWritesN
    rw [hfll]
    rcases scanFirstLineAux_spec bytes (numUnits bytes - 1) 1 0 with
      hL | ⟨k, hk1, hk2, hnt, hterm⟩
    · have h0 : firstLineLengthN bytes (numUnits bytes) = 0 := hL
      rw [h0]
      rfl
    · refine kernelPathWritesAux_congr _ _ _ 1 ?_
      intro j hj1 hj2 hnt1
      refine hagree j ?_
      have hjk : j ≤ k := by
        by_contra hc
        push_neg at hc
        have hne := hnt1 k hk1 hc
        rw [hagree k (by omega)] at hne
        rcases hterm with h10 | h13
        · exact hne.1 h10
        · exact hne.2 h13
      omega
  have hcells : kernelPathCellsN (bytes ++ extra) (numUnits bytes) =
      kernelPathCellsN bytes (numUnits bytes) := by
    unfold kernelPathCellsN
    rw [hkpl, hwrites]
  have hoob : kernelPathOobN (bytes ++ extra) (numUnits bytes) =
      kernelPathOobN bytes (numUnits bytes) := by
    unfold kernelPathOobN
    rw [hkpl, hwrites]
  unfold parseConfig parseConfigN
  rw [hbom, hcells, hcopy, hoob]

/-! ### Claims C2, C6, C9, C10 -/

/-- Claim C2, amended: for every configuration buffer that passes the
native-order marker check but whose first line has no `\n` or `\r`
terminator before the end of the buffer, parsing does not fail:
`FirstLineLength` keeps its initial value 0, the kernel-path buffer receives
only its null terminator (every preceding cell is left unwritten), and the
command-line scan restarts at unit 0, so `CommandLine` spans every unit of
the buffer including the marker. Moreover no scan of the parse reads a code
unit at or past the buffer's reported length: appending arbitrary bytes
beyond the reported size never changes the parse result. -/
theorem c2_no_terminator_behavior :
    (∀ bytes, bomClass bytes = BomClass.littleEndian →
      (∀ i, i < numUnits bytes → 1 ≤ i → unitAt bytes i ≠ 10 ∧ unitAt bytes i ≠ 13) →
      firstLineLength bytes = 0 ∧
      parseConfig bytes =
        .ok ⟨List.replicate (kernelPathLen bytes) none ++ [some 0], unitsList bytes, []⟩) ∧
    (∀ bytes extra, 2 ≤ bytes.length →
      parseConfigN (bytes ++ extra) (numUnits bytes) = parseConfig bytes) := by
  constructor
  · intro bytes hbom hnt
    obtain ⟨hb0, hb1⟩ := bomLE_elim bytes hbom
    have hlen2 : 2 ≤ bytes.length := length_ge_two_of_getD_one bytes hb1
    have hn1 : 1 ≤ numUnits bytes := by unfold numUnits; omega
    have hu0 : unitAt bytes 0 = 65279 := by
      unfold unitAt
      rw [show (2 : Nat) * 0 = 0 from rfl, show (2 : Nat) * 0 + 1 = 1 from rfl, hb0, hb1]
    have hnt0 : ∀ t, 0 ≤ t → t < 0 + numUnits bytes →
        unitAt bytes t ≠ 10 ∧ unitAt bytes t ≠ 13 := by
      intro t _ ht
      by_cases h0 : t = 0
      · subst h0
        rw [hu0]
        exact ⟨by omega, by omega⟩
      · exact hnt t (by omega) (by omega)
    have hfll : firstLineLength bytes = 0 := by
      unfold firstLineLength firstLineLengthN firstLineScanN
      exact scanFirstLineAux_fst_noTerm bytes _ 1 0
        (fun t ht1 ht2 => hnt t (by omega) (by omega))
    refine ⟨hfll, ?_⟩
    have hfllN : firstLineLengthN bytes (numUnits bytes) = 0 := hfll
    have hwr : kernelPathWritesN bytes (numUnits bytes) = [] := by
      unfold kernelPathWritesN
      rw [hfllN]
      rfl
    have hcells : kernelPathCellsN bytes (numUnits bytes) =
        List.replicate (kernelPathLen bytes) none ++ [some 0] := by
      unfold kernelPathCellsN
      rw [hwr]
      have hmap : ∀ k : Nat,
          (if k = kernelPathLenN bytes (numUnits bytes) then (some 0 : Option Nat)
            else (([] : List (Nat × Nat)).filter (fun w => w.1 = k)).head?.map
              (fun w => w.2)) =
          (if k = kernelPathLenN bytes (numUnits bytes) then some 0 else none) := by
        intro k
        by_cases hk : k = kernelPathLenN bytes (numUnits bytes) <;> simp [hk]
      rw [List.map_congr_left (fun k _ => hmap k)]
      exact map_range_if_last _
    have hcmd : commandLineN bytes (numUnits bytes) = unitsList bytes := by
      unfold commandLineN
      rw [hfllN, Nat.sub_zero]
      rw [cmdlineCopyAux_noTerm bytes (numUnits bytes) 0
        (fun t ht1 ht2 => hnt0 t ht1 (by omega))]
      unfold unitsList
      exact List.map_congr_left (fun s _ => by rw [Nat.zero_add])
    have hoob : kernelPathOobN bytes (numUnits bytes) = [] := by
      unfold kernelPathOobN
      rw [hwr]
      rfl
    have hps : parseConfig bytes =
        .ok ⟨kernelPathCellsN bytes (numUnits bytes), commandLineN bytes (numUnits bytes),
          kernelPathOobN bytes (numUnits bytes)⟩ := by
      unfold parseConfig parseConfigN
      rw [hbom]
    rw [hps, hcells, hcmd, hoob]
  · intro bytes extra h
    exact parseConfigN_append bytes extra h

/-- Claim C2, witness: the amended statement evaluated on the buffer
[255, 254, 97, 0] (marker then a lone `a` with no terminator), and the
append-invariance instantiated with junk bytes [7, 7]. -/
theorem c2_no_terminator_behavior_witness :
    (firstLineLength c2Bytes = 0 ∧
      parseConfig c2Bytes =
        .ok ⟨List.replicate (kernelPathLen c2Bytes) none ++ [some 0],
          unitsList c2Bytes, []⟩) ∧
    parseConfigN (c2Bytes ++ [7, 7]) (numUnits c2Bytes) = parseConfig c2Bytes :=
  ⟨c2_no_terminator_behavior.1 c2Bytes (by decide) (by decide),
   c2_no_terminator_behavior.2 c2Bytes [7, 7] (by decide)⟩

/-- Claim C6, confirmed: interpreting the first two bytes as a 16-bit marker
in the build's byte order, the parse classifies the buffer three ways. If
the marker is 0xFEFF (65279) parsing proceeds to a result; if it is 0xFFFE
(65534, the opposite byte order) parsing fails with `wrongEndianness`
without scanning further; otherwise it fails with
`missingOrInvalidMarker`. -/
theorem c6_marker_classification (bytes : List Nat) (hlen : 2 ≤ bytes.length)
    (h0 : bytes.getD 0 0 < 256) (h1 : bytes.getD 1 0 < 256) :
    (unitAt bytes 0 = 65279 → ∃ s, parseConfig bytes = .ok s) ∧
    (unitAt bytes 0 = 65534 →
      parseConfig bytes = .error EncodingError.wrongEndianness) ∧
    (unitAt bytes 0 ≠ 65279 → unitAt bytes 0 ≠ 65534 →
      parseConfig bytes = .error EncodingError.missingOrInvalidMarker) := by
  obtain ⟨b0, r0, rfl⟩ : ∃ a r, bytes = a :: r := by
    cases bytes with
    | nil => simp at hlen
    | cons a r => exact ⟨a, r, rfl⟩
  obtain ⟨b1, r1, rfl⟩ : ∃ a r, r0 = a :: r := by
    cases r0 with
    | nil => simp at hlen
    | cons a r => exact ⟨a, r, rfl⟩
  have hg0 : (b0 :: b1 :: r1).getD 0 0 = b0 := rfl
  have hg1 : (b0 :: b1 :: r1).getD 1 0 = b1 := rfl
  rw [hg0] at h0
  rw [hg1] at h1
  have hu : unitAt (b0 :: b1 :: r1) 0 = b0 + 256 * b1 := rfl
  refine ⟨?_, ?_, ?_⟩
  · intro h
    rw [hu] at h
    have hb : b0 = 255 ∧ b1 = 254 := by omega
    have hle : compareBytes (b0 :: b1 :: r1) bomLEBytes 2 = true :=
      (compareBytes2_true_iff b0 b1 r1 255 254).mpr hb
    have hbom : bomClass (b0 :: b1 :: r1) = BomClass.littleEndian := by
      unfold bomClass
      rw [if_pos hle]
    refine ⟨⟨kernelPathCellsN (b0 :: b1 :: r1) (numUnits (b0 :: b1 :: r1)),
      commandLineN (b0 :: b1 :: r1) (numUnits (b0 :: b1 :: r1)),
      kernelPathOobN (b0 :: b1 :: r1) (numUnits (b0 :: b1 :: r1))⟩, ?_⟩
    unfold parseConfig parseConfigN
    rw [hbom]
  · intro h
    rw [hu] at h
    have hb : b0 = 254 ∧ b1 = 255 := by omega
    have hle : ¬ compareBytes (b0 :: b1 :: r1) bomLEBytes 2 = true := by
      intro hc
      have := (compareBytes2_true_iff b0 b1 r1 255 254).mp hc
      omega
    have hbe : compareBytes (b0 :: b1 :: r1) bomBEBytes 2 = true :=
      (compareBytes2_true_iff b0 b1 r1 254 255).mpr hb
    have hbom : bomClass (b0 :: b1 :: r1) = BomClass.bigEndian := by
      unfold bomClass
      rw [if_neg hle, if_pos hbe]
    unfold parseConfig parseConfigN
    rw [hbom]
  · intro hne1 hne2
    rw [hu] at hne1 hne2
    have hle : ¬ compareBytes (b0 :: b1 :: r1) bomLEBytes 2 = true := by
      intro hc
      have := (compareBytes2_true_iff b0 b1 r1 255 254).mp hc
      omega
    have hbe : ¬ compareBytes (b0 :: b1 :: r1) bomBEBytes 2 = true := by
      intro hc
      have := (compareBytes2_true_iff b0 b1 r1 254 255).mp hc
      omega
    have hbom : bomClass (b0 :: b1 :: r1) = BomClass.invalid := by
      unfold bomClass
      rw [if_neg hle, if_neg hbe]
    unfold parseConfig parseConfigN
    rw [hbom]

/-- Claim C6, witness: the classification evaluated on the two-byte buffer
[254, 255], whose 16-bit marker is the opposite-order value 0xFFFE. -/
theorem c6_marker_classification_witness :
    parseConfig [254, 255] = Except.error EncodingError.wrongEndianness :=
  (c6_marker_classification [254, 255] (by decide) (by decide) (by decide)).2.1 (by decide)

/-- Claim C9, confirmed: on every run, `Cmdline` is the only buffer allocated
from `EfiLoaderData` (every other allocation uses `EfiBootServicesData`,
whose lifetime ends with the loader) and the loader never frees `Cmdline` on
any path; on every run that reaches `StartImage`, the loaded kernel image's
`LoadOptions` points to `Cmdline` and `LoadOptionsSize` is the string's byte
size including the null terminator, (unit count + 1) * 2 (stated below the
`UINT32` overflow threshold, where the source's 32-bit size arithmetic is
exact). -/
theorem c9_cmdline_handoff (env : Env) :
    (∀ p, (BufId.cmdline, p) ∈ (runLoader env).allocated → p = Pool.loaderData) ∧
    (∀ b p, (b, p) ∈ (runLoader env).allocated → b ≠ BufId.cmdline →
      p = Pool.bootServicesData) ∧
    BufId.cmdline ∉ (runLoader env).freed ∧
    ((runLoader env).exitPoint = ExitPoint.startImageReturn →
      cmdlineLen env.fileBytes + 1 < 2 ^ 31 →
      (runLoader env).loadOptions = some BufId.cmdline ∧
      (runLoader env).loadOptionsSize = some ((cmdlineLen env.fileBytes + 1) * 2)) := by
  unfold runLoader
  cases exitOf env <;> simp only [exitResult] <;>
    refine ⟨?_, ?_, ?_, ?_⟩ <;>
      first
        | decide
        | (intro hx
           exact absurd hx (by decide))
        | (intro hl
           refine ⟨by trivial, ?_⟩
           simp only [cmdlineSizeBytes, Option.some.injEq]
           omega)
        | (intro hx hl
           refine ⟨by trivial, ?_⟩
           simp only [cmdlineSizeBytes, Option.some.injEq]
           omega)

/-- Claim C9, witness: a fully successful run on the example configuration
reaches `StartImage` with `LoadOptions = Cmdline` and
`LoadOptionsSize = (17 + 1) * 2` bytes. -/
theorem c9_cmdline_handoff_witness :
    (runLoader goodEnv).exitPoint = ExitPoint.startImageReturn ∧
    (runLoader goodEnv).loadOptions = some BufId.cmdline ∧
    (runLoader goodEnv).loadOptionsSize = some ((cmdlineLen goodEnv.fileBytes + 1) * 2) :=
  ⟨by decide,
   ((c9_cmdline_handoff goodEnv).2.2.2 (by decide) (by decide)).1,
   ((c9_cmdline_handoff goodEnv).2.2.2 (by decide) (by decide)).2⟩

/-- Claim C10, confirmed: when the first terminator of the first line is a
`\r` at unit index `k` (not immediately followed by `\n`), the parser still
consumes two units unconditionally: `FirstLineLength = k + 2`, so the second
field starts two units after the `\r`, and the code unit at index `k + 1` is
silently skipped — replacing it by any value `v` leaves the entire parse
result unchanged. -/
theorem c10_lone_cr_skips_unit (bytes : List Nat) (k v : Nat)
    (hk1 : 1 ≤ k) (hk2 : k + 1 < numUnits bytes)
    (hnt : ∀ t, t < k → 1 ≤ t → unitAt bytes t ≠ 10 ∧ unitAt bytes t ≠ 13)
    (hcr : unitAt bytes k = 13) (_hnl : unitAt bytes (k + 1) ≠ 10) :
    firstLineLength bytes = k + 2 ∧
    parseConfig (setUnit bytes (k + 1) v) = parseConfig bytes := by
  have hn1 : 1 ≤ numUnits bytes := by omega
  have hag : ∀ j, j ≠ k + 1 → unitAt (setUnit bytes (k + 1) v) j = unitAt bytes j :=
    fun j hj => unitAt_setUnit_ne bytes (k + 1) v j hj
  have hfll : firstLineLength bytes = k + 2 := by
    unfold firstLineLength firstLineLengthN firstLineScanN
    exact scanFirstLineAux_fst_cr bytes _ 1 0 k hk1 (by omega)
      (fun t ht1 ht2 => hnt t ht2 ht1) hcr
  have hfllN : firstLineLengthN bytes (numUnits bytes) = k + 2 := hfll
  have hscan : firstLineScanN bytes (numUnits bytes) =
      firstLineScanN (setUnit bytes (k + 1) v) (numUnits bytes) := by
    unfold firstLineScanN
    refine scanFirstLineAux_congr bytes _ _ 1 0 ?_
    intro j hj1 hj2 hnt1
    have hjk : j ≤ k := by
      by_contra hc
      push_neg at hc
      exact (hnt1 k hk1 hc).2 hcr
    exact (hag j (by omega)).symm
  have hnn : numUnits (setUnit bytes (k + 1) v) = numUnits bytes :=
    numUnits_setUnit bytes (k + 1) v
  have hbom : bomClass (setUnit bytes (k + 1) v) = bomClass bytes :=
    bomClass_congr _ _ (getD_setUnit_ne bytes (k + 1) v 0 (by omega) (by omega))
      (getD_setUnit_ne bytes (k + 1) v 1 (by omega) (by omega))
  have hfllS : firstLineLengthN (setUnit bytes (k + 1) v) (numUnits bytes) =
      firstLineLengthN bytes (numUnits bytes) := by
    unfold firstLineLengthN
    rw [← hscan]
  have hkplS : kernelPathLenN (setUnit bytes (k + 1) v) (numUnits bytes) =
      kernelPathLenN bytes (numUnits bytes) := by
    unfold kernelPathLenN
    rw [← hscan]
  have hwrS : kernelPathWritesN (setUnit bytes (k + 1) v) (numUnits bytes) =
      kernelPathWritesN bytes (numUnits bytes) := by
    unfold kernelPathWritesN
    rw [hfllS]
    refine (kernelPathWritesAux_congr bytes _ _ 1 ?_).symm
    intro j hj1 hj2 hnt1
    have hjk : j ≤ k := by
      by_contra hc
      push_neg at hc
      exact (hnt1 k hk1 hc).2 hcr
    exact (hag j (by omega)).symm
  have hcmdS : commandLineN (setUnit bytes (k + 1) v) (numUnits bytes) =
      commandLineN bytes (numUnits bytes) := by
    unfold commandLineN
    rw [hfllS]
    refine (cmdlineCopyAux_congr bytes _ _ _ ?_).symm
    intro t ht1 ht2
    rw [hfllN] at ht1
    exact (hag t (by omega)).symm
  have hcellsS : kernelPathCellsN (setUnit bytes (k + 1) v) (numUnits bytes) =
      kernelPathCellsN bytes (numUnits bytes) := by
    unfold kernelPathCellsN
    rw [hkplS, hwrS]
  have hoobS : kernelPathOobN (setUnit bytes (k + 1) v) (numUnits bytes) =
      kernelPathOobN bytes (numUnits bytes) := by
    unfold kernelPathOobN
    rw [hkplS, hwrS]
  refine ⟨hfll, ?_⟩
  unfold parseConfig
  rw [hnn]
  unfold parseConfigN
  rw [hbom, hcellsS, hcmdS, hoobS]

/-- Claim C10, witness: in the buffer with first line `A` terminated by a
lone `\r` followed by `Z` (not `\n`), the first-line length is 2 + 2 and
overwriting the skipped unit `Z` with 88 leaves the parse unchanged. -/
theorem c10_lone_cr_skips_unit_witness :
    firstLineLength c10Bytes = 2 + 2 ∧
    parseConfig (setUnit c10Bytes (2 + 1) 88) = parseConfig c10Bytes :=
  c10_lone_cr_skips_unit c10Bytes 2 88 (by decide) (by decide) (by decide)
    (by decide) (by decide)

end StubLoader
